import Mathlib

/-!
Verification of `src/Kmeans_clustering.py` (Python-Remote-Sensing-Scripts).

Shallow embedding notes:
* Multi-dimensional numpy arrays are embedded as total index functions
  `ℕ → ... → ℚ` together with the shape bounds that the claims quantify over;
  float64 arithmetic is idealised as exact rational (and, where a square root
  occurs, real) arithmetic.
* 2-D sample matrices handed to scikit-learn are embedded as `List (List ℚ)`
  (a list of pixel rows, each row a list of band values).
* Library calls (numpy reshape/concatenate/transpose/random.randint,
  sklearn KMeans.predict, rasterio metadata dictionaries, Python `int()` and
  string slicing) are embedded by their documented semantics, which is what the
  script relies on.
* The interactive control flow of `run_Kmeans` after the subsample step is
  embedded as a trace of events (`KEvent`), in program order.
-/

namespace KmeansClustering

/-! ### numpy reshape, line 54:
`X = np.reshape(raster, (rows*columns, raster.shape[2]))`.

`rows` and `columns` are module-level globals (line 233); at every call site
(lines 251-263) the raster passed has shape `(rows, columns, bands)`, so the
target shape is `(R*C, B)` for a raster of shape `(R, C, B)`.
`np.reshape` flattens in C (row-major) order and refills in C order. -/

/-- C-order flattening of a 3-D array of shape `(R, Cc, B)`: the element at
flat position `p` is `a (p / (Cc*B)) ((p / B) % Cc) (p % B)`. -/
def flatten3 (a : ℕ → ℕ → ℕ → ℚ) (Cc B : ℕ) : ℕ → ℚ :=
  fun p => a (p / (Cc * B)) ((p / B) % Cc) (p % B)

/-- C-order refill of the flattened array into shape `(R*Cc, B)`:
entry `(q, b)` sits at flat position `q * B + b`. -/
def reshapeTo2 (a : ℕ → ℕ → ℕ → ℚ) (Cc B : ℕ) : ℕ → ℕ → ℚ :=
  fun q b => flatten3 a Cc B (q * B + b)

/-- A concrete 2×2×2 raster used to instantiate hypotheses. -/
def ex3 : ℕ → ℕ → ℕ → ℚ := fun i j b => (i : ℚ) * 100 + (j : ℚ) * 10 + (b : ℚ)

/-! ### Brightness normalization, lines 56-61:
```
def norm(r):
    norm = r / np.sqrt( np.sum((r**2), 0) )
    return norm
X = np.apply_along_axis(norm, 0, X)
```
`np.apply_along_axis(f, 0, X)` applies `f` to the 1-D slices of `X` taken
along axis 0, i.e. to the columns `X[:, j]`; for a 1-D slice `r`,
`np.sum(r**2, 0)` is the full sum of squares.  So entry `(i, j)` of the
result is `X[i, j] / sqrt(Σ_i X[i, j]**2)`: each COLUMN (band) is scaled by
the reciprocal of its own Euclidean norm. -/

/-- Sum of squares of column `j` of the pixel matrix (`N` = number of rows). -/
def colSumSq (X : ℕ → ℕ → ℚ) (N : ℕ) (j : ℕ) : ℚ :=
  ((List.range N).map (fun i => X i j ^ 2)).sum

/-- The matrix produced by lines 58-61: entry `(i, j)` divided by the
Euclidean norm of column `j` (idealised real arithmetic). -/
noncomputable def bnormApply (X : ℕ → ℕ → ℚ) (N : ℕ) : ℕ → ℕ → ℝ :=
  fun i j => (X i j : ℝ) / Real.sqrt ((colSumSq X N j : ℚ) : ℝ)

/-- Euclidean norm of row `i` of a real matrix with `B` columns. -/
noncomputable def rowNormAfter (Y : ℕ → ℕ → ℝ) (B : ℕ) (i : ℕ) : ℝ :=
  Real.sqrt (((List.range B).map (fun j => Y i j ^ 2)).sum)

/-- Concrete 2-pixel, 2-band matrix `[[1, 0], [1, 1]]` (rows = pixels). -/
def Xcb : ℕ → ℕ → ℚ := fun i j =>
  if i = 0 then (if j = 0 then 1 else 0) else 1

/-! ### Subsampling, lines 67-69:
```
idx = np.random.randint(X.shape[0], size=numSamples)
samples = X[idx, :]
```
`np.random.randint(N, size=k)` draws `k` independent uniform integers in
`[0, N)` (with replacement); it is embedded as an arbitrary stream
`rng : ℕ → ℕ` reduced mod `N`.  Fancy indexing `X[idx, :]` gathers the rows
named by `idx`. -/

/-- The index vector drawn by `np.random.randint(N, size=numSamples)`. -/
def randIdx (rng : ℕ → ℕ) (N numSamples : ℕ) : List ℕ :=
  (List.range numSamples).map (fun t => rng t % N)

/-- Row gather `X[idx, :]` (out-of-range reads never happen; `[]` is a
vacuous default required by totality). -/
def sampleRows (X : List (List ℚ)) (idx : List ℕ) : List (List ℚ) :=
  idx.map (fun i => X.getD i [])

/-- A concrete 2×1 pixel matrix used to instantiate hypotheses. -/
def exX : List (List ℚ) := [[1], [2]]

/-- Concrete pair of 1-D centroids for witnesses. -/
def exCent : List (List ℚ) := [[0], [1]]

/-- Concrete 2×2-image pixel matrix (4 rows, 1 band) for witnesses. -/
def exPix : List (List ℚ) := [[0], [1], [0], [1]]

/-! ### `KMeans.predict`, line 95: assigns every row of `X` to the nearest of
the `k` cluster centroids produced by `fit` (ties to the first, as
`np.argmin` / `pairwise_distances_argmin` do). -/

/-- Squared Euclidean distance between two feature rows. -/
def sqDist (a b : List ℚ) : ℚ :=
  (List.zipWith (fun x y => (x - y) ^ 2) a b).sum

/-- First-minimum scan: `ds` the remaining distances, `bd` the best distance
so far, `i` the index of the next element, `bi` the best index so far. -/
def bestIdxAux : List ℚ → ℚ → ℕ → ℕ → ℕ
  | [], _, _, bi => bi
  | d :: ds, bd, i, bi =>
      if d < bd then bestIdxAux ds d (i + 1) i else bestIdxAux ds bd (i + 1) bi

/-- Index of the first minimum of a distance list (`np.argmin`). -/
def bestIdx : List ℚ → ℕ
  | [] => 0
  | d :: ds => bestIdxAux ds d 1 0

/-- `kmeans.predict(X)`: label each row of `X` with the index of its nearest
centroid. -/
def kmeansPredict (cent : List (List ℚ)) (X : List (List ℚ)) : List ℕ :=
  X.map (fun x => bestIdx (cent.map (fun c => sqDist x c)))

/-- Line 98, `np.reshape(predCluster, (rows, columns))`: the label of pixel
`(i, j)` in the output image is flat label `i * Cc + j` (C order). -/
def gridOf (Cc : ℕ) (labels : List ℕ) (i j : ℕ) : ℕ :=
  labels.getD (i * Cc + j) 0

/-! ### Python `int(...)`, line 92.
`int(s)` for a string strips leading/trailing whitespace, accepts one
optional `+`/`-` sign, then a nonempty digit run in which single underscores
may appear between digits; anything else raises `ValueError`. -/

/-- Strip leading and trailing whitespace (`int()` allows both). -/
def pyStrip (l : List Char) : List Char :=
  ((l.dropWhile Char.isWhitespace).reverse.dropWhile Char.isWhitespace).reverse

/-- Decimal value of a digit list. -/
def digitsToNat (ds : List Char) : ℕ :=
  ds.foldl (fun n c => 10 * n + (c.toNat - 48)) 0

/-- After an initial digit: digits, possibly with single underscores that
must sit between two digits.  Returns the digit characters. -/
def digitsRest : List Char → Option (List Char)
  | [] => some []
  | c :: cs =>
      if c.isDigit then (digitsRest cs).map (fun ds => c :: ds)
      else if c = '_' then
        match cs with
        | [] => none
        | d :: cs2 =>
            if d.isDigit then (digitsRest cs2).map (fun ds => d :: ds) else none
      else none

/-- A nonempty digit run (with underscore grouping), as a number. -/
def pyDigits : List Char → Option ℕ
  | [] => none
  | c :: cs =>
      if c.isDigit then (digitsRest cs).map (fun ds => digitsToNat (c :: ds))
      else none

/-- Python `int(s)` on a string: `some` value, or `none` for `ValueError`. -/
def pyInt (l : List Char) : Option ℤ :=
  match pyStrip l with
  | '+' :: rest => (pyDigits rest).map (fun n => (n : ℤ))
  | '-' :: rest => (pyDigits rest).map (fun n => -(n : ℤ))
  | t => (pyDigits t).map (fun n => (n : ℤ))

/-! ### Output filename, lines 100-105:
```
output = "Sentinel_40m_kmeans_"+bestCluster+"k.tif"
if bnorm == True:
    output = output[:-4] + "_bnorm.tif"
if pca == True:
    output = output[:-4] + "_pca.tif"
```
`output[:-4]` keeps all but the last four characters. -/

/-- Python slice `s[:-4]`. -/
def dropLast4 (l : List Char) : List Char := l.take (l.length - 4)

/-- The filename written by `run_Kmeans`, as a function of the raw string the
user typed and of the two flags. -/
def outputName (s : List Char) (bnorm pca : Bool) : List Char :=
  let o1 := "Sentinel_40m_kmeans_".data ++ s ++ "k.tif".data
  let o2 := if bnorm then dropLast4 o1 ++ "_bnorm.tif".data else o1
  if pca then dropLast4 o2 ++ "_pca.tif".data else o2

/-! ### rasterio metadata, lines 225-233 and 107-108.
`src.meta` is a dictionary with exactly the keys
`driver, dtype, nodata, width, height, count, crs, transform`. -/

/-- A rasterio metadata dictionary. -/
structure RasterMeta where
  driver : List Char
  dtype : List Char
  nodata : Option ℚ
  width : ℕ
  height : ℕ
  count : ℕ
  crs : List Char
  transform : ℚ × ℚ × ℚ × ℚ × ℚ × ℚ
  deriving DecidableEq

/-- Lines 228-231: after cropping, update driver, height (`img.shape[1]`),
width (`img.shape[2]`) and transform; `shape` is `img.shape` =
`(bands, rows, cols)`. -/
def metaCropUpdate (m : RasterMeta) (shape : ℕ × ℕ × ℕ)
    (t : ℚ × ℚ × ℚ × ℚ × ℚ × ℚ) : RasterMeta :=
  { m with driver := "GTiff".data, height := shape.2.1, width := shape.2.2,
           transform := t }

/-- Line 108: `meta.update(dtype=str(predCluster.dtype), count = 1)`. -/
def metaKmeansUpdate (m : RasterMeta) (dt : List Char) : RasterMeta :=
  { m with dtype := dt, count := 1 }

/-! ### The interactive phase of `run_Kmeans`, lines 74-112, as a trace. -/

/-- Python `range(start, stop, step)` for positive `step`, via fuel
(`stop - start` bounds the iteration count when `step ≥ 1`). -/
def pyRangeAux : ℕ → ℕ → ℕ → ℕ → List ℕ
  | 0, _, _, _ => []
  | fuel + 1, start, stop, step =>
      if start < stop then start :: pyRangeAux fuel (start + step) stop step
      else []

/-- Python `range(start, stop, step)`. -/
def pyRange (start stop step : ℕ) : List ℕ :=
  pyRangeAux (stop - start) start stop step

/-- Observable events of the interactive phase, in program order. -/
inductive KEvent where
  /-- Lines 78-82: `KMeans(n_clusters=k).fit_predict(samples)` followed by
  `silhouette_score(samples, labels)`; the score is abstracted by `silh k`. -/
  | score : ℕ → ℚ → KEvent
  /-- Line 89: `input("Please enter your selected number of clusters: ")`. -/
  | prompt : KEvent
  /-- Line 92-93: the final `KMeans(n_clusters=int(bestCluster))` fit. -/
  | finalFit : ℤ → KEvent
  /-- Lines 111-112: `rasterio.open(output, 'w')` + `dst.write`. -/
  | write : List Char → KEvent
  deriving DecidableEq

/-- Result of the interactive phase: the events that happened, and the
exception (if any) that aborted it. -/
structure RunOutcome where
  events : List KEvent
  err : Option (List Char)
  deriving DecidableEq

/-- Lines 74-82: one `score` event per candidate of `range(2, 33, 2)`, in
order; `silh k` abstracts the silhouette score of candidate `k` on the
subsample. -/
def sweepEvents (silh : ℕ → ℚ) : List KEvent :=
  (pyRange 2 33 2).map (fun k => KEvent.score k (silh k))

/-- Lines 74-112: the sweep, then the prompt; then `int(bestCluster)` either
raises `ValueError` (nothing further happens) or yields `k`, after which the
final fit runs and the labelled raster is written to `outputName`. -/
def runKmeansPost (silh : ℕ → ℚ) (userInput : List Char) (bnorm pca : Bool) :
    RunOutcome :=
  match pyInt userInput with
  | none => ⟨sweepEvents silh ++ [KEvent.prompt], some "ValueError".data⟩
  | some k =>
      ⟨sweepEvents silh ++
        [KEvent.prompt, KEvent.finalFit k,
         KEvent.write (outputName userInput bnorm pca)], none⟩

/-- Extract the cluster count of a final-fit event. -/
def finalKOf : KEvent → Option ℤ
  | KEvent.finalFit k => some k
  | _ => none

/-- Is this event a disk write? -/
def isWrite : KEvent → Bool
  | KEvent.write _ => true
  | _ => false

/-- Is this event the final K-means fit? -/
def isFinalFit : KEvent → Bool
  | KEvent.finalFit _ => true
  | _ => false

/-! ### Band stacking, lines 239-245:
```
raster = np.concatenate((img, img2), axis=0)
raster = np.transpose(raster, [1,2,0])
```
`np.concatenate` along axis 0 places `img` (shape `(B2, R, C)`) first and
`img2` (shape `(B1, R, C)`) at offset `B2`; `np.transpose(a, [1,2,0])`
satisfies `out[i,j,b] = a[b,i,j]`. -/

/-- `np.concatenate((img, img2), axis=0)` with `img` of leading size `B2`. -/
def npConcat0 (img img2 : ℕ → ℕ → ℕ → ℚ) (B2 : ℕ) : ℕ → ℕ → ℕ → ℚ :=
  fun b i j => if b < B2 then img b i j else img2 (b - B2) i j

/-- `np.transpose(a, [1,2,0])`. -/
def npTranspose120 (a : ℕ → ℕ → ℕ → ℚ) : ℕ → ℕ → ℕ → ℚ :=
  fun i j b => a b i j

/-- Concrete single-band cube for witnesses. -/
def exS2 : ℕ → ℕ → ℕ → ℚ := fun b i j => (b : ℚ) * 7 + (i : ℚ) * 3 + (j : ℚ)

/-- Second concrete single-band cube for witnesses. -/
def exS1 : ℕ → ℕ → ℕ → ℚ := fun b i j => (b : ℚ) * 11 + (i : ℚ) * 5 + (j : ℚ) + 100

/-! ## Theorems -/

/-- Claim C2: reshaping a raster of shape `(R, C, B)` into the `(R*C, B)`
pixel-by-band matrix (line 54) is row-major: `X[i*C + j, b] = raster[i, j, b]`
whenever `i < R`, `j < C`, `b < B`. -/
theorem reshape_row_major (a : ℕ → ℕ → ℕ → ℚ) (R Cc B i j b : ℕ)
    (hi : i < R) (hj : j < Cc) (hb : b < B) :
    reshapeTo2 a Cc B (i * Cc + j) b = a i j b := by
  have hB : 0 < B := lt_of_le_of_lt (Nat.zero_le b) hb
  have hCB : 0 < Cc * B := Nat.mul_pos (lt_of_le_of_lt (Nat.zero_le j) hj) hB
  have hp : (i * Cc + j) * B + b = B * (i * Cc + j) + b := by ring
  have hmod : (B * (i * Cc + j) + b) % B = b := by
    rw [Nat.mul_add_mod]; exact Nat.mod_eq_of_lt hb
  have hdivB : (B * (i * Cc + j) + b) / B = i * Cc + j := by
    rw [Nat.mul_add_div hB, Nat.div_eq_of_lt hb, Nat.add_zero]
  have hmodC : (i * Cc + j) % Cc = j := by
    rw [show i * Cc + j = Cc * i + j by ring, Nat.mul_add_mod]
    exact Nat.mod_eq_of_lt hj
  have hsmall : j * B + b < Cc * B := by
    calc j * B + b < j * B + B := by omega
    _ = (j + 1) * B := by ring
    _ ≤ Cc * B := Nat.mul_le_mul_right B hj
  have hdivCB : (B * (i * Cc + j) + b) / (Cc * B) = i := by
    rw [show B * (i * Cc + j) + b = Cc * B * i + (j * B + b) by ring,
        Nat.mul_add_div hCB, Nat.div_eq_of_lt hsmall, Nat.add_zero]
  unfold reshapeTo2 flatten3
  rw [hp, hdivCB, hdivB, hmodC, hmod]

/-- Witness for C2 at the concrete raster `ex3`, `R = C = B = 2`,
`(i, j, b) = (1, 1, 1)`. -/
theorem reshape_row_major_witness :
    (1 < 2 ∧ 1 < 2 ∧ 1 < 2) ∧ reshapeTo2 ex3 2 2 (1 * 2 + 1) 1 = ex3 1 1 1 :=
  ⟨by decide,
   reshape_row_major ex3 2 2 2 1 1 1 (by decide) (by decide) (by decide)⟩

/-- Claim C6: stacking the cropped arrays (`np.concatenate` on axis 0, lines
239-240) and transposing to pixel-major layout (line 245) gives
`raster[i,j,b] = img[b,i,j]` for `b < B2` and `raster[i,j,b] = img2[b-B2,i,j]`
for `B2 ≤ b < B2 + B1`. -/
theorem band_stack_layout (img img2 : ℕ → ℕ → ℕ → ℚ) (B2 B1 i j b : ℕ) :
    (b < B2 → npTranspose120 (npConcat0 img img2 B2) i j b = img b i j) ∧
    (B2 ≤ b → b < B2 + B1 →
      npTranspose120 (npConcat0 img img2 B2) i j b = img2 (b - B2) i j) := by
  constructor
  · intro hb
    simp [npTranspose120, npConcat0, hb]
  · intro hb _
    simp [npTranspose120, npConcat0, Nat.not_lt.mpr hb]

/-- Witness for C6 with `B2 = B1 = 1` at bands `b = 0` and `b = 1`. -/
theorem band_stack_layout_witness :
    npTranspose120 (npConcat0 exS2 exS1 1) 0 0 0 = exS2 0 0 0 ∧
    npTranspose120 (npConcat0 exS2 exS1 1) 0 0 1 = exS1 0 0 0 :=
  ⟨(band_stack_layout exS2 exS1 1 1 0 0 0).1 (by decide),
   (band_stack_layout exS2 exS1 1 1 0 0 1).2 (by decide) (by decide)⟩

/-- The first-minimum scan never leaves the index range it has seen. -/
theorem bestIdxAux_lt (ds : List ℚ) :
    ∀ (bd : ℚ) (i bi : ℕ), bi < i → bestIdxAux ds bd i bi < i + ds.length := by
  induction ds with
  | nil => intro bd i bi h; simpa [bestIdxAux] using h
  | cons d ds ih =>
    intro bd i bi h
    by_cases hd : d < bd
    · simpa [bestIdxAux, hd, Nat.add_assoc, Nat.add_comm 1] using
        ih d (i + 1) i (Nat.lt_succ_self i)
    · simpa [bestIdxAux, hd, Nat.add_assoc, Nat.add_comm 1] using
        ih bd (i + 1) bi (Nat.lt_succ_of_lt h)

/-- `np.argmin` of a nonempty list is a valid index. -/
theorem bestIdx_lt (d : ℚ) (ds : List ℚ) : bestIdx (d :: ds) < (d :: ds).length := by
  simpa [bestIdx, Nat.add_comm 1] using bestIdxAux_lt ds d 1 0 Nat.one_pos

/-- Every label produced by `kmeans.predict` indexes one of the centroids. -/
theorem kmeansPredict_lt (cent X : List (List ℚ)) (hc : cent ≠ []) :
    ∀ l ∈ kmeansPredict cent X, l < cent.length := by
  intro l hl
  simp only [kmeansPredict, List.mem_map] at hl
  obtain ⟨x, _, rfl⟩ := hl
  cases cent with
  | nil => exact absurd rfl hc
  | cons c cs =>
    simpa using bestIdx_lt (sqDist x c) (cs.map (fun c => sqDist x c))

/-- A defaulted read below the length is a list element. -/
theorem getD_mem_of_lt (X : List (List ℚ)) (i : ℕ) (h : i < X.length) :
    X.getD i [] ∈ X := by
  induction X generalizing i with
  | nil => simp at h
  | cons a as ih =>
    cases i with
    | zero => simp
    | succ m =>
      simp only [List.getD_cons_succ]
      exact List.mem_cons_of_mem a (ih m (by simpa using h))

/-- A defaulted read from a list of naturals all below `k` stays below `k`
when the default `0` does. -/
theorem getD_lt_of_forall (l : List ℕ) (k : ℕ) (hk : 0 < k)
    (h : ∀ x ∈ l, x < k) : ∀ n, l.getD n 0 < k := by
  intro n
  induction l generalizing n with
  | nil => simpa using hk
  | cons a as ih =>
    cases n with
    | zero => exact h a (List.mem_cons_self a as)
    | succ m =>
      simp only [List.getD_cons_succ]
      exact ih (fun x hx => h x (List.mem_cons_of_mem a hx)) m

/-- Claim C8: for `numSamples ≥ 1` and a nonempty pixel matrix with `N` rows,
the subsample (lines 67-69) draws exactly `numSamples` indices, each `< N`,
and gathers a `(numSamples, bands)` sample matrix — also when
`numSamples > N`, since the draws are independent with replacement. -/
theorem subsample_in_bounds (rng : ℕ → ℕ) (X : List (List ℚ))
    (N numSamples bands : ℕ) (hns : 1 ≤ numSamples) (hN : X.length = N)
    (hpos : 0 < N) (hrow : ∀ r ∈ X, r.length = bands) :
    (randIdx rng N numSamples).length = numSamples ∧
    (∀ i ∈ randIdx rng N numSamples, i < N) ∧
    (sampleRows X (randIdx rng N numSamples)).length = numSamples ∧
    (∀ r ∈ sampleRows X (randIdx rng N numSamples), r.length = bands) := by
  refine ⟨by simp [randIdx], ?_, by simp [sampleRows, randIdx], ?_⟩
  · intro i hi
    simp only [randIdx, List.mem_map, List.mem_range] at hi
    obtain ⟨t, _, rfl⟩ := hi
    exact Nat.mod_lt _ hpos
  · intro r hr
    simp only [sampleRows, List.mem_map] at hr
    obtain ⟨i, hi, rfl⟩ := hr
    simp only [randIdx, List.mem_map, List.mem_range] at hi
    obtain ⟨t, _, rfl⟩ := hi
    exact hrow _ (getD_mem_of_lt X _ (by rw [hN]; exact Nat.mod_lt _ hpos))

/-- Witness for C8: `rng = id`, `N = 2`, `numSamples = 3`, `bands = 1`. -/
theorem subsample_in_bounds_witness :
    (1 ≤ 3 ∧ exX.length = 2 ∧ 0 < 2 ∧ ∀ r ∈ exX, r.length = 1) ∧
    (randIdx (fun t => t) 2 3).length = 3 :=
  ⟨⟨by decide, rfl, by decide, by decide⟩,
   (subsample_in_bounds (fun t => t) exX 2 3 1 (by decide) rfl (by decide)
      (by decide)).1⟩

/-- Claim C5: with the `k ≥ 1` centroids of the final fit, `run_Kmeans`
labels every one of the `R*C` pixels (line 95 applies `predict` to the full
matrix `X`), the reshaped image holds labels in `{0, ..., k-1}` at every
in-range position (lines 95-98), and the output metadata has band count 1
(line 108). -/
theorem final_predict_full_image (cent X : List (List ℚ)) (k R Cc : ℕ)
    (hk : cent.length = k) (h1 : 1 ≤ k) (hX : X.length = R * Cc) :
    (kmeansPredict cent X).length = R * Cc ∧
    (∀ i j, i < R → j < Cc → gridOf Cc (kmeansPredict cent X) i j < k) ∧
    (∀ m dt, (metaKmeansUpdate m dt).count = 1) := by
  have hc : cent ≠ [] := by
    intro hnil; rw [hnil] at hk; simp at hk; omega
  refine ⟨by simp [kmeansPredict, hX], ?_, fun m dt => rfl⟩
  intro i j _ _
  exact getD_lt_of_forall _ k (lt_of_lt_of_le Nat.zero_lt_one h1)
    (fun x hx => hk ▸ kmeansPredict_lt cent X hc x hx) _

/-- Witness for C5: two 1-D centroids, a 2×2 image, position `(1, 1)`. -/
theorem final_predict_full_image_witness :
    (exCent.length = 2 ∧ 1 ≤ 2 ∧ exPix.length = 2 * 2) ∧
    gridOf 2 (kmeansPredict exCent exPix) 1 1 < 2 :=
  ⟨⟨rfl, by decide, rfl⟩,
   (final_predict_full_image exCent exPix 2 2 2 rfl (by decide) rfl).2.1 1 1
     (by decide) (by decide)⟩

/-- The candidate sweep performs no final fit. -/
theorem sweepEvents_no_final (silh : ℕ → ℚ) :
    (sweepEvents silh).filterMap finalKOf = [] := by
  rw [sweepEvents, List.filterMap_map, List.filterMap_eq_nil_iff]
  intro k _
  rfl

/-- Claim C3: the sweep (lines 74-82) visits exactly the candidates
`2, 4, ..., 32` of `range(2, 33, 2)` in increasing order, scoring each one,
and every score event precedes the user prompt in the trace of
`run_Kmeans`. -/
theorem sweep_candidates_before_prompt (silh : ℕ → ℚ) (s : List Char)
    (b p : Bool) :
    pyRange 2 33 2 = [2, 4, 6, 8, 10, 12, 14, 16, 18, 20, 22, 24, 26, 28, 30, 32] ∧
    ∃ rest, (runKmeansPost silh s b p).events =
      (pyRange 2 33 2).map (fun k => KEvent.score k (silh k)) ++
        KEvent.prompt :: rest := by
  refine ⟨by decide, ?_⟩
  cases hps : pyInt s with
  | none =>
      exact ⟨[], by simp [runKmeansPost, hps, sweepEvents]⟩
  | some k =>
      exact ⟨[KEvent.finalFit k, KEvent.write (outputName s b p)],
        by simp [runKmeansPost, hps, sweepEvents]⟩

/-- Claim C4: when the prompt answer parses as the integer `k`, the final fit
(line 92) uses exactly `k` clusters, whatever silhouette scores the sweep
produced: the trace's unique final-fit event carries `k`, and replacing the
silhouette function changes nothing. -/
theorem final_fit_uses_user_input (silh silh2 : ℕ → ℚ) (s : List Char)
    (b p : Bool) (k : ℤ) (h : pyInt s = some k) :
    (runKmeansPost silh s b p).events.filterMap finalKOf = [k] ∧
    (runKmeansPost silh s b p).events.filterMap finalKOf =
      (runKmeansPost silh2 s b p).events.filterMap finalKOf := by
  have key : ∀ f : ℕ → ℚ,
      (runKmeansPost f s b p).events.filterMap finalKOf = [k] := by
    intro f
    simp [runKmeansPost, h, List.filterMap_append, sweepEvents_no_final f,
      List.filterMap_cons, finalKOf]
  exact ⟨key silh, (key silh).trans (key silh2).symm⟩

/-- Witness for C4 at input string `"8"`. -/
theorem final_fit_uses_user_input_witness :
    pyInt "8".data = some 8 ∧
    (runKmeansPost (fun _ => 0) "8".data false false).events.filterMap
      finalKOf = [8] :=
  ⟨by decide,
   (final_fit_uses_user_input (fun _ => 0) (fun _ => 0) "8".data false false 8
      (by decide)).1⟩

/-- Claim C10: when the prompt answer does not parse as an integer,
`int(bestCluster)` (line 92) raises `ValueError` and the trace contains
neither a final fit nor a disk write: no output raster is created. -/
theorem bad_input_aborts_without_output (silh : ℕ → ℚ) (s : List Char)
    (b p : Bool) (h : pyInt s = none) :
    (runKmeansPost silh s b p).err = some "ValueError".data ∧
    ∀ e ∈ (runKmeansPost silh s b p).events,
      isFinalFit e = false ∧ isWrite e = false := by
  constructor
  · simp [runKmeansPost, h]
  · intro e he
    simp only [runKmeansPost, h, sweepEvents, List.mem_append, List.mem_map,
      List.mem_singleton] at he
    rcases he with ⟨a, _, rfl⟩ | rfl
    · exact ⟨rfl, rfl⟩
    · exact ⟨rfl, rfl⟩

/-- Witness for C10 at input string `"abc"`. -/
theorem bad_input_aborts_witness :
    pyInt "abc".data = none ∧
    (runKmeansPost (fun _ => 0) "abc".data false false).err =
      some "ValueError".data :=
  ⟨by decide,
   (bad_input_aborts_without_output (fun _ => 0) "abc".data false false
      (by decide)).1⟩

/-- Claim C7: the cropped metadata (lines 228-231) equals the source
metadata except for driver (set to `"GTiff"`), height, width and transform;
`run_Kmeans` (line 108) then changes only dtype and count (count to 1) and
leaves every other field unchanged. -/
theorem metadata_frame (m : RasterMeta) (shape : ℕ × ℕ × ℕ)
    (t : ℚ × ℚ × ℚ × ℚ × ℚ × ℚ) (dt : List Char) :
    (metaCropUpdate m shape t).driver = "GTiff".data ∧
    (metaCropUpdate m shape t).height = shape.2.1 ∧
    (metaCropUpdate m shape t).width = shape.2.2 ∧
    (metaCropUpdate m shape t).transform = t ∧
    (metaCropUpdate m shape t).dtype = m.dtype ∧
    (metaCropUpdate m shape t).nodata = m.nodata ∧
    (metaCropUpdate m shape t).count = m.count ∧
    (metaCropUpdate m shape t).crs = m.crs ∧
    (metaKmeansUpdate (metaCropUpdate m shape t) dt).dtype = dt ∧
    (metaKmeansUpdate (metaCropUpdate m shape t) dt).count = 1 ∧
    (metaKmeansUpdate (metaCropUpdate m shape t) dt).driver =
      (metaCropUpdate m shape t).driver ∧
    (metaKmeansUpdate (metaCropUpdate m shape t) dt).nodata =
      (metaCropUpdate m shape t).nodata ∧
    (metaKmeansUpdate (metaCropUpdate m shape t) dt).width =
      (metaCropUpdate m shape t).width ∧
    (metaKmeansUpdate (metaCropUpdate m shape t) dt).height =
      (metaCropUpdate m shape t).height ∧
    (metaKmeansUpdate (metaCropUpdate m shape t) dt).crs =
      (metaCropUpdate m shape t).crs ∧
    (metaKmeansUpdate (metaCropUpdate m shape t) dt).transform =
      (metaCropUpdate m shape t).transform :=
  ⟨rfl, rfl, rfl, rfl, rfl, rfl, rfl, rfl, rfl, rfl, rfl, rfl, rfl, rfl, rfl,
   rfl⟩

/-- Python slice `[:-4]` of a list ending in the four characters `.tif`. -/
theorem dropLast4_append_tif (x : List Char) :
    dropLast4 (x ++ ".tif".data) = x := by
  unfold dropLast4
  have h4 : ".tif".data.length = 4 := rfl
  have h : (x ++ ".tif".data).length - 4 = x.length := by
    rw [List.length_append, h4]; omega
  rw [h]
  exact List.take_left x _

/-- Claim C9: the output filename is
`"Sentinel_40m_kmeans_" + bestCluster + "k.tif"`, with `_bnorm` inserted
before `.tif` when `bnorm`, `_pca` inserted before `.tif` when `pca`, and
`_bnorm_pca` in that order when both hold (lines 100-105). -/
theorem output_filenames (s : List Char) :
    outputName s false false =
      "Sentinel_40m_kmeans_".data ++ s ++ "k.tif".data ∧
    outputName s true false =
      "Sentinel_40m_kmeans_".data ++ s ++ "k_bnorm.tif".data ∧
    outputName s false true =
      "Sentinel_40m_kmeans_".data ++ s ++ "k_pca.tif".data ∧
    outputName s true true =
      "Sentinel_40m_kmeans_".data ++ s ++ "k_bnorm_pca.tif".data := by
  have e1 : "Sentinel_40m_kmeans_".data ++ s ++ "k.tif".data
      = ("Sentinel_40m_kmeans_".data ++ s ++ "k".data) ++ ".tif".data := by
    rw [List.append_assoc, List.append_assoc,
      show "k".data ++ ".tif".data = "k.tif".data by decide,
      ← List.append_assoc]
  refine ⟨rfl, ?_, ?_, ?_⟩
  · show dropLast4 ("Sentinel_40m_kmeans_".data ++ s ++ "k.tif".data) ++
      "_bnorm.tif".data = _
    rw [e1, dropLast4_append_tif, List.append_assoc, List.append_assoc,
      show "k".data ++ "_bnorm.tif".data = "k_bnorm.tif".data by decide,
      ← List.append_assoc]
  · show dropLast4 ("Sentinel_40m_kmeans_".data ++ s ++ "k.tif".data) ++
      "_pca.tif".data = _
    rw [e1, dropLast4_append_tif, List.append_assoc, List.append_assoc,
      show "k".data ++ "_pca.tif".data = "k_pca.tif".data by decide,
      ← List.append_assoc]
  · show dropLast4
      (dropLast4 ("Sentinel_40m_kmeans_".data ++ s ++ "k.tif".data) ++
        "_bnorm.tif".data) ++ "_pca.tif".data = _
    rw [e1, dropLast4_append_tif,
      show ("_bnorm.tif" : String).data = "_bnorm".data ++ ".tif".data by decide,
      ← List.append_assoc, dropLast4_append_tif, List.append_assoc,
      List.append_assoc, List.append_assoc,
      show "k".data ++ ("_bnorm".data ++ "_pca.tif".data) =
        "k_bnorm_pca.tif".data by decide,
      ← List.append_assoc]

/-- Claim C1 is false of the code: `np.apply_along_axis(norm, 0, X)`
(line 61) normalizes the COLUMNS of the pixel matrix, not the pixel rows.
At the concrete matrix `Xcb = [[1, 0], [1, 1]]` the original row 0 is
nonzero, yet row 0 of the normalized matrix is `(1/√2, 0)`, whose Euclidean
norm is `√(1/2) ≠ 1` — brightness normalization as claimed would give it
norm 1. -/
theorem bnorm_scales_columns_failing_row :
    (Xcb 0 0 ≠ 0 ∨ Xcb 0 1 ≠ 0) ∧
    rowNormAfter (bnormApply Xcb 2) 2 0 ≠ 1 := by
  have c0 : colSumSq Xcb 2 0 = 2 := by
    unfold colSumSq
    rw [show List.range 2 = [0, 1] from rfl]
    simp only [List.map_cons, List.map_nil, List.sum_cons, List.sum_nil, Xcb]
    norm_num
  have c1 : colSumSq Xcb 2 1 = 1 := by
    unfold colSumSq
    rw [show List.range 2 = [0, 1] from rfl]
    simp only [List.map_cons, List.map_nil, List.sum_cons, List.sum_nil, Xcb]
    norm_num
  have hb00 : bnormApply Xcb 2 0 0 = 1 / Real.sqrt 2 := by
    unfold bnormApply
    rw [c0, show Xcb 0 0 = 1 from rfl]
    norm_num
  have hb01 : bnormApply Xcb 2 0 1 = 0 := by
    unfold bnormApply
    rw [c1, show Xcb 0 1 = 0 from rfl]
    norm_num
  have hsum : ((List.range 2).map (fun j => bnormApply Xcb 2 0 j ^ 2)).sum
      = 1 / 2 := by
    rw [show List.range 2 = [0, 1] from rfl]
    simp only [List.map_cons, List.map_nil, List.sum_cons, List.sum_nil,
      hb00, hb01]
    rw [div_pow, one_pow, Real.sq_sqrt (by norm_num : (0:ℝ) ≤ 2)]
    norm_num
  refine ⟨Or.inl (by decide), ?_⟩
  unfold rowNormAfter
  rw [hsum]
  intro h
  rw [Real.sqrt_eq_one] at h
  norm_num at h

end KmeansClustering
